import Mathlib

/-!
Verification of the Headline Sentiment Aggregator of `src/app.py`.

The aggregator (`analyze_sentiment`, lines 31-55) receives a list of news
items (dicts with optional `title` and `link` keys), scores each title with
an external sentiment-scoring capability (TextBlob in the source), and
returns the average polarity together with one scored record per item.
The label thresholds (lines 75-80 of the source) map an average score to
Positive / Negative / Neutral.

The scoring capability is abstracted as a function `String → ℚ` (the spec
only requires wiring to it, not reimplementing NLP); polarities are
embedded as rationals, the exact-arithmetic shadow of the source's reals.
-/

/-- A news item as consumed by `analyze_sentiment`: a dict that may lack
the `title` or `link` key (`item.get('title','')`, line 43-44). -/
structure NewsItem where
  title : Option String
  link : Option String
deriving Repr, DecidableEq

/-- One row of the `news_data` list built at line 52 of the source:
`{'Title': title, 'Sentiment Score': polarity, 'Link': link}`. -/
structure ScoredHeadline where
  title : String
  polarity : ℚ
  link : String
deriving Repr, DecidableEq

/-- `item.get('title', '')` (line 43). -/
def getTitle (item : NewsItem) : String := item.title.getD ""

/-- `item.get('link', '')` (line 44). -/
def getLink (item : NewsItem) : String := item.link.getD ""

/-- The two local accumulators of the loop at lines 39-52:
`sentiments = []` and `news_data = []`, mutated by `append`. -/
structure LoopState where
  sentiments : List ℚ
  news_data : List ScoredHeadline
deriving Repr, DecidableEq

/-- One iteration of the `for item in news_list` loop (lines 42-52):
score the (defaulted) title, append the polarity to `sentiments` and the
record to `news_data`. -/
def loopBody (score : String → ℚ) (st : LoopState) (item : NewsItem) : LoopState :=
  let title := getTitle item
  let link := getLink item
  let polarity := score title
  { sentiments := st.sentiments ++ [polarity],
    news_data := st.news_data ++ [⟨title, polarity, link⟩] }

/-- The whole loop, starting from the two empty accumulators. -/
def runLoop (score : String → ℚ) (news_list : List NewsItem) : LoopState :=
  news_list.foldl (loopBody score) ⟨[], []⟩

/-- `analyze_sentiment` (lines 31-55): early return `(0, empty)` on an
empty list (lines 36-37), otherwise run the loop and compute
`sum(sentiments) / len(sentiments) if sentiments else 0` (line 54). -/
def analyze_sentiment (score : String → ℚ) (news_list : List NewsItem) :
    ℚ × List ScoredHeadline :=
  if news_list.isEmpty then (0, [])
  else
    let st := runLoop score news_list
    let avg_sentiment : ℚ :=
      if st.sentiments.isEmpty then 0
      else st.sentiments.sum / (st.sentiments.length : ℚ)
    (avg_sentiment, st.news_data)

/-- The three labels assigned at lines 75-80 of the source. -/
inductive SentimentLabel where
  | Positive
  | Negative
  | Neutral
deriving Repr, DecidableEq

/-- The label logic at lines 75-80: `avg_score > 0.1` is Positive,
`avg_score < -0.1` is Negative, otherwise Neutral. -/
def sentiment_label (avg_score : ℚ) : SentimentLabel :=
  if avg_score > (1 / 10 : ℚ) then .Positive
  else if avg_score < -(1 / 10 : ℚ) then .Negative
  else .Neutral

/-- The polarity assigned to one item: score of its defaulted title. -/
def polarityOf (score : String → ℚ) (item : NewsItem) : ℚ :=
  score (getTitle item)

/-- The record built for one item at line 52. -/
def scoredOf (score : String → ℚ) (item : NewsItem) : ScoredHeadline :=
  ⟨getTitle item, polarityOf score item, getLink item⟩

/-- The division at line 54, made checkable: `none` exactly when the
divisor `len(sentiments)` is zero. -/
def checkedDiv (a : ℚ) (n : ℕ) : Option ℚ :=
  if n = 0 then none else some (a / (n : ℚ))

/-- `analyze_sentiment` with the division site guarded: identical control
flow, but the division at line 54 goes through `checkedDiv`, so the result
is `none` iff that division would divide by zero. -/
def analyze_sentiment_checked (score : String → ℚ) (news_list : List NewsItem) :
    Option (ℚ × List ScoredHeadline) :=
  if news_list.isEmpty then some (0, [])
  else
    let st := runLoop score news_list
    (if st.sentiments.isEmpty then some 0
      else checkedDiv st.sentiments.sum st.sentiments.length).map
      (fun avg => (avg, st.news_data))

/-- The loop of lines 42-52 with a fallible scoring capability: a scoring
failure (a Python exception from the TextBlob call at lines 48-49) aborts
the loop, as exceptions do. -/
def runLoopE {ε : Type} (score : String → Except ε ℚ) :
    List NewsItem → LoopState → Except ε LoopState
  | [], st => .ok st
  | item :: rest, st =>
    match score (getTitle item) with
    | .error e => .error e
    | .ok polarity =>
        runLoopE score rest
          ⟨st.sentiments ++ [polarity],
            st.news_data ++ [⟨getTitle item, polarity, getLink item⟩]⟩

/-- `analyze_sentiment` with the fallible scorer: it installs no handler
(there is no `try` inside `analyze_sentiment`), so a scoring failure
propagates out of the aggregation. -/
def analyze_sentimentE {ε : Type} (score : String → Except ε ℚ)
    (news_list : List NewsItem) : Except ε (ℚ × List ScoredHeadline) :=
  if news_list.isEmpty then .ok (0, [])
  else
    match runLoopE score news_list ⟨[], []⟩ with
    | .error e => .error e
    | .ok st =>
        .ok (if st.sentiments.isEmpty then 0
              else st.sentiments.sum / (st.sentiments.length : ℚ),
             st.news_data)

/-! ### Helper lemmas about the loop -/

/-- The loop is a map on both accumulators. -/
lemma foldl_loopBody (score : String → ℚ) :
    ∀ (l : List NewsItem) (st : LoopState),
      l.foldl (loopBody score) st =
        ⟨st.sentiments ++ l.map (polarityOf score),
          st.news_data ++ l.map (scoredOf score)⟩ := by
  intro l
  induction l with
  | nil => intro st; simp
  | cons item rest ih =>
    intro st
    simp only [List.foldl_cons, ih, List.map_cons]
    simp [loopBody, polarityOf, scoredOf, List.append_assoc]

lemma runLoop_sentiments (score : String → ℚ) (l : List NewsItem) :
    (runLoop score l).sentiments = l.map (polarityOf score) := by
  simp [runLoop, foldl_loopBody]

lemma runLoop_news_data (score : String → ℚ) (l : List NewsItem) :
    (runLoop score l).news_data = l.map (scoredOf score) := by
  simp [runLoop, foldl_loopBody]

/-- Closed form of `analyze_sentiment` on a non-empty list. -/
lemma analyze_sentiment_eq (score : String → ℚ) (l : List NewsItem)
    (h : l ≠ []) :
    analyze_sentiment score l =
      ((l.map (polarityOf score)).sum / (l.length : ℚ),
        l.map (scoredOf score)) := by
  obtain ⟨item, rest, rfl⟩ : ∃ a r, l = a :: r := by
    cases l with
    | nil => exact absurd rfl h
    | cons a r => exact ⟨a, r, rfl⟩
  simp [analyze_sentiment, runLoop_sentiments, runLoop_news_data]

/-- If some item of the list fails to score, the loop ends in an error,
whatever the accumulator state. -/
lemma runLoopE_error {ε : Type} (score : String → Except ε ℚ) :
    ∀ (l : List NewsItem) (st : LoopState),
      (∃ item ∈ l, ∃ e, score (getTitle item) = .error e) →
      ∃ e, runLoopE score l st = .error e := by
  intro l
  induction l with
  | nil =>
    intro st h
    rcases h with ⟨item, hm, _⟩
    cases hm
  | cons a r ih =>
    intro st h
    cases ha : score (getTitle a) with
    | error e => exact ⟨e, by simp [runLoopE, ha]⟩
    | ok p =>
      rcases h with ⟨item, hm, e, he⟩
      rcases List.mem_cons.mp hm with rfl | hmr
      · rw [ha] at he
        cases he
      · obtain ⟨e2, he2⟩ :=
          ih ⟨st.sentiments ++ [p], st.news_data ++ [⟨getTitle a, p, getLink a⟩]⟩
            ⟨item, hmr, e, he⟩
        exact ⟨e2, by simp [runLoopE, ha, he2]⟩

/-- A list of rationals all lying in [-1, 1] has its sum between minus its
length and its length. -/
lemma polarity_sum_bounds (qs : List ℚ) (h : ∀ q ∈ qs, -1 ≤ q ∧ q ≤ 1) :
    -(qs.length : ℚ) ≤ qs.sum ∧ qs.sum ≤ (qs.length : ℚ) := by
  induction qs with
  | nil => simp
  | cons a t ih =>
    have ha := h a (List.mem_cons_self a t)
    have ht := ih (fun q hq => h q (List.mem_cons_of_mem a hq))
    simp only [List.sum_cons, List.length_cons]
    push_cast
    constructor
    · linarith [ha.1, ht.1]
    · linarith [ha.2, ht.2]

/-! ### Claim theorems -/

/-- C1: for every non-empty input list, `analyze_sentiment` returns as its
first component the arithmetic mean of the per-item polarities assigned by
the scoring capability. -/
theorem analyze_sentiment_mean (score : String → ℚ) (l : List NewsItem)
    (h : l ≠ []) :
    (analyze_sentiment score l).1 =
      (l.map (polarityOf score)).sum / (l.length : ℚ) := by
  rw [analyze_sentiment_eq score l h]

theorem analyze_sentiment_mean_witness :
    (analyze_sentiment (fun _ => 1 / 2) [⟨some "a", none⟩]).1 =
      (([⟨some "a", none⟩] : List NewsItem).map (polarityOf (fun _ => 1 / 2))).sum /
        ((([⟨some "a", none⟩] : List NewsItem).length : ℕ) : ℚ) :=
  analyze_sentiment_mean (fun _ => 1 / 2) [⟨some "a", none⟩] (List.cons_ne_nil _ _)

/-- C2: on the empty list, `analyze_sentiment` returns average polarity
exactly 0 with zero scored records, and the derived label is Neutral; the
empty list is not an error. -/
theorem analyze_sentiment_empty (score : String → ℚ) :
    (analyze_sentiment score []).1 = 0 ∧
    (analyze_sentiment score []).2 = [] ∧
    sentiment_label (analyze_sentiment score []).1 = .Neutral := by
  refine ⟨rfl, rfl, ?_⟩
  norm_num [analyze_sentiment, sentiment_label]

/-- C3: the label is Positive exactly when the average is above 1/10,
Negative exactly when below -1/10, Neutral otherwise; both boundaries
1/10 and -1/10 yield Neutral (strict inequalities), while 1000001/10000000
yields Positive and its negation yields Negative. -/
theorem sentiment_label_boundaries :
    (∀ q : ℚ,
      (sentiment_label q = .Positive ↔ q > 1 / 10) ∧
      (sentiment_label q = .Negative ↔ q < -(1 / 10)) ∧
      (sentiment_label q = .Neutral ↔ (-(1 / 10) ≤ q ∧ q ≤ 1 / 10))) ∧
    sentiment_label (1 / 10) = .Neutral ∧
    sentiment_label (-(1 / 10)) = .Neutral ∧
    sentiment_label (1000001 / 10000000) = .Positive ∧
    sentiment_label (-(1000001 / 10000000)) = .Negative := by
  constructor
  · intro q
    unfold sentiment_label
    split_ifs with h1 h2
    · refine ⟨⟨fun _ => h1, fun _ => rfl⟩, ?_, ?_⟩
      · exact ⟨fun hc => hc.elim,
          fun hq => ((by linarith : False)).elim⟩
      · exact ⟨fun hc => hc.elim,
          fun hq => ((by linarith [hq.2] : False)).elim⟩
    · refine ⟨?_, ⟨fun _ => h2, fun _ => rfl⟩, ?_⟩
      · exact ⟨fun hc => hc.elim, fun hq => absurd hq h1⟩
      · exact ⟨fun hc => hc.elim,
          fun hq => ((by linarith [hq.1] : False)).elim⟩
    · push_neg at h1 h2
      refine ⟨?_, ?_, ⟨fun _ => ⟨h2, h1⟩, fun _ => rfl⟩⟩
      · exact ⟨fun hc => hc.elim,
          fun hq => ((by linarith : False)).elim⟩
      · exact ⟨fun hc => hc.elim,
          fun hq => ((by linarith : False)).elim⟩
  · refine ⟨?_, ?_, ?_, ?_⟩ <;> norm_num [sentiment_label]

/-- C4: if the scoring capability fails on some headline of the input,
the aggregation returns that failure (an `error` value), not a default
score: the failure propagates out of `analyze_sentiment`. -/
theorem scoring_failure_propagates {ε : Type} (score : String → Except ε ℚ)
    (l : List NewsItem)
    (h : ∃ item ∈ l, ∃ e, score (getTitle item) = .error e) :
    ∃ e, analyze_sentimentE score l = .error e := by
  have hne : l.isEmpty = false := by
    rcases h with ⟨item, hm, _⟩
    cases l with
    | nil => cases hm
    | cons a r => rfl
  obtain ⟨e, he⟩ := runLoopE_error score l ⟨[], []⟩ h
  refine ⟨e, ?_⟩
  simp [analyze_sentimentE, hne, he]

theorem scoring_failure_propagates_witness :
    ∃ e : Unit,
      analyze_sentimentE (fun _ => Except.error ()) [⟨none, none⟩] =
        .error e :=
  scoring_failure_propagates (fun _ => Except.error ()) [⟨none, none⟩]
    ⟨⟨none, none⟩, List.mem_singleton_self _, (), rfl⟩

/-- C5: an item lacking a title is scored as if its title were the empty
string (the whole analysis is unchanged by making the empty title
explicit), its polarity contribution is the scorer's value at `""`, and a
missing link is likewise treated as the empty string; no failure occurs. -/
theorem missing_title_scored_as_empty (score : String → ℚ)
    (l1 l2 : List NewsItem) (item : NewsItem) (h : item.title = none) :
    analyze_sentiment score (l1 ++ item :: l2) =
      analyze_sentiment score (l1 ++ (⟨some "", item.link⟩ : NewsItem) :: l2) ∧
    polarityOf score item = score "" ∧
    (item.link = none → getLink item = "") := by
  have ht : getTitle item = "" := by simp [getTitle, h]
  refine ⟨?_, by simp [polarityOf, ht], fun hl => by simp [getLink, hl]⟩
  have hne : l1 ++ item :: l2 ≠ [] := by simp
  have hne2 : l1 ++ (⟨some "", item.link⟩ : NewsItem) :: l2 ≠ [] := by simp
  rw [analyze_sentiment_eq _ _ hne, analyze_sentiment_eq _ _ hne2]
  have hp : polarityOf score item = polarityOf score ⟨some "", item.link⟩ := by
    simp [polarityOf, getTitle, h]
  have hs : scoredOf score item = scoredOf score ⟨some "", item.link⟩ := by
    simp [scoredOf, polarityOf, getTitle, getLink, h]
  simp [hp, hs]

theorem missing_title_scored_as_empty_witness :
    (analyze_sentiment (fun _ => 0) ([] ++ (⟨none, none⟩ : NewsItem) :: []) =
      analyze_sentiment (fun _ => 0)
        ([] ++ (⟨some "", (none : Option String)⟩ : NewsItem) :: [])) ∧
    polarityOf (fun _ => 0) ⟨none, none⟩ = 0 ∧
    ((⟨none, none⟩ : NewsItem).link = none → getLink ⟨none, none⟩ = "") :=
  missing_title_scored_as_empty (fun _ => 0) [] [] ⟨none, none⟩ rfl

/-- C6: for every input list, `analyze_sentiment` returns exactly one
scored record per input item, in input order, each carrying that item's
(defaulted) title, its assigned polarity, and its (defaulted) link. -/
theorem analyze_sentiment_records (score : String → ℚ) (l : List NewsItem) :
    (analyze_sentiment score l).2.length = l.length ∧
    (analyze_sentiment score l).2 = l.map (scoredOf score) := by
  have h2 : (analyze_sentiment score l).2 = l.map (scoredOf score) := by
    cases l with
    | nil => rfl
    | cons a r =>
      rw [analyze_sentiment_eq score (a :: r) (List.cons_ne_nil a r)]
  exact ⟨by rw [h2, List.length_map], h2⟩

/-- C7: the average polarity (and hence the derived label) is invariant
under permutation of the input list. -/
theorem analyze_sentiment_perm_invariant (score : String → ℚ)
    (l l2 : List NewsItem) (h : l.Perm l2) :
    (analyze_sentiment score l).1 = (analyze_sentiment score l2).1 ∧
    sentiment_label (analyze_sentiment score l).1 =
      sentiment_label (analyze_sentiment score l2).1 := by
  have key : (analyze_sentiment score l).1 = (analyze_sentiment score l2).1 := by
    rcases eq_or_ne l [] with rfl | hne
    · have : l2 = [] := (h.symm).eq_nil
      subst this
      rfl
    · have hne2 : l2 ≠ [] := by
        intro he
        subst he
        exact hne h.eq_nil
      rw [analyze_sentiment_eq _ _ hne, analyze_sentiment_eq _ _ hne2]
      have hsum := (h.map (polarityOf score)).sum_eq
      dsimp only
      rw [hsum, h.length_eq]
  exact ⟨key, by rw [key]⟩

theorem analyze_sentiment_perm_invariant_witness :
    ((analyze_sentiment (fun t => (t.length : ℚ))
        [⟨some "a", none⟩, ⟨some "bb", none⟩]).1 =
      (analyze_sentiment (fun t => (t.length : ℚ))
        [⟨some "bb", none⟩, ⟨some "a", none⟩]).1) ∧
    sentiment_label
        (analyze_sentiment (fun t => (t.length : ℚ))
          [⟨some "a", none⟩, ⟨some "bb", none⟩]).1 =
      sentiment_label
        (analyze_sentiment (fun t => (t.length : ℚ))
          [⟨some "bb", none⟩, ⟨some "a", none⟩]).1 :=
  analyze_sentiment_perm_invariant (fun t => (t.length : ℚ))
    [⟨some "a", none⟩, ⟨some "bb", none⟩]
    [⟨some "bb", none⟩, ⟨some "a", none⟩]
    (List.Perm.swap (⟨some "bb", none⟩ : NewsItem) (⟨some "a", none⟩ : NewsItem) [])

/-- C8: the aggregation is pure and deterministic: its result is fully
determined by the scoring model's values on the (defaulted) titles of the
input — two runs whose scorers agree there return identical results, so no
hidden state can influence the outcome. -/
theorem analyze_sentiment_deterministic (score1 score2 : String → ℚ)
    (l : List NewsItem)
    (h : ∀ item ∈ l, score1 (getTitle item) = score2 (getTitle item)) :
    analyze_sentiment score1 l = analyze_sentiment score2 l := by
  have hp : l.map (polarityOf score1) = l.map (polarityOf score2) :=
    List.map_congr_left (fun a ha => h a ha)
  have hs : l.map (scoredOf score1) = l.map (scoredOf score2) :=
    List.map_congr_left (fun a ha => by simp [scoredOf, polarityOf, h a ha])
  rcases eq_or_ne l [] with rfl | hne
  · rfl
  · rw [analyze_sentiment_eq _ _ hne, analyze_sentiment_eq _ _ hne, hp, hs]

theorem analyze_sentiment_deterministic_witness :
    analyze_sentiment (fun t => (t.length : ℚ)) [⟨some "up", none⟩] =
      analyze_sentiment (fun t => if t.length = 2 then 2 else 99)
        [⟨some "up", none⟩] :=
  analyze_sentiment_deterministic (fun t => (t.length : ℚ))
    (fun t => if t.length = 2 then 2 else 99) [⟨some "up", none⟩]
    (by decide)

/-- C9: when the scoring capability keeps every polarity in [-1, 1], the
average polarity returned by `analyze_sentiment` lies in [-1, 1] for every
input list (it is 0 on the empty list). -/
theorem averagePolarity_bounded (score : String → ℚ) (l : List NewsItem)
    (h : ∀ t : String, -1 ≤ score t ∧ score t ≤ 1) :
    -1 ≤ (analyze_sentiment score l).1 ∧ (analyze_sentiment score l).1 ≤ 1 := by
  rcases eq_or_ne l [] with rfl | hne
  · norm_num [analyze_sentiment]
  · rw [analyze_sentiment_eq _ _ hne]
    dsimp only
    have hb := polarity_sum_bounds (l.map (polarityOf score)) (by
      intro q hq
      rcases List.mem_map.mp hq with ⟨a, _, rfl⟩
      exact h (getTitle a))
    rw [List.length_map] at hb
    have hlen : (0 : ℚ) < (l.length : ℚ) := by
      exact_mod_cast Nat.pos_of_ne_zero (by simpa [List.length_eq_zero] using hne)
    constructor
    · rw [le_div_iff₀ hlen]
      linarith [hb.1]
    · rw [div_le_one hlen]
      exact hb.2

theorem averagePolarity_bounded_witness :
    -1 ≤ (analyze_sentiment (fun _ => 0) []).1 ∧
      (analyze_sentiment (fun _ => 0) []).1 ≤ 1 :=
  averagePolarity_bounded (fun _ => 0) [] (fun _ => by norm_num)

/-- C10: the division at line 54 never divides by zero: the guarded
variant, which returns `none` exactly when the divisor is zero, returns
`some` of the unguarded result on every input list. -/
theorem analyze_sentiment_division_safe (score : String → ℚ)
    (l : List NewsItem) :
    analyze_sentiment_checked score l = some (analyze_sentiment score l) := by
  rcases eq_or_ne l [] with rfl | hne
  · rfl
  · obtain ⟨a, r, rfl⟩ : ∃ a r, l = a :: r := by
      cases l with
      | nil => exact absurd rfl hne
      | cons a r => exact ⟨a, r, rfl⟩
    simp [analyze_sentiment_checked, analyze_sentiment, checkedDiv,
      runLoop_sentiments, runLoop_news_data]
